import Mathlib

/-!
Shallow embedding of `src/a2/script.js` (class `RelaxationMusicPlayer`):
a browser media-player UI with a countdown timer and a todo list.

Conventions of the embedding:
* DOM element state touched by the class (classes, text content, inline
  values) is carried as explicit record fields.
* JS numbers holding track indices are modelled as `Int` (JS `%` is the
  truncating remainder `Int.tmod`); timer minutes/seconds are `Int` so that
  non-negativity is a provable property rather than a typing artifact.
* `Math.random()` is modelled as an explicit rational parameter `q` with
  the contract `0 ≤ q < 1`; `new Date()` as an explicit `now` parameter.
* Asynchronous platform effects (audio element playback, notifications,
  the chime, the 4-second delayed reset in `timerComplete`) have no
  modelled state transition; the state mutations surrounding them are kept.
-/

/-- JS `String.prototype.padStart(n, c)`: prepend copies of `c` until the
length is at least `n`. -/
def padStart (s : String) (n : Nat) (c : Char) : String :=
  String.mk (List.replicate (n - s.length) c) ++ s

/-- Truncation toward zero, the rounding used by the JS `%` operator on
non-integral operands. -/
def jsTrunc (q : ℚ) : ℤ :=
  if 0 ≤ q then ⌊q⌋ else ⌈q⌉

/-- JS `a % b` on arbitrary (finite) numbers: `a - b * trunc (a / b)`. -/
def jsFmod (a b : ℚ) : ℚ :=
  a - b * jsTrunc (a / b)

/-- JS `String.prototype.trim()`: drop leading and trailing whitespace. -/
def jsTrim (s : String) : String :=
  String.mk (((s.data.dropWhile Char.isWhitespace).reverse.dropWhile
    Char.isWhitespace).reverse)

/-- One playlist entry: `{src, title, element}` built by `loadTracks` from
the markup; `active` models the presence of the `active` CSS class on the
entry's list-item element. -/
structure Track where
  src : String
  title : String
  active : Bool
deriving DecidableEq, Repr

/-- The player-related state of `RelaxationMusicPlayer`: the state flags of
the constructor plus the DOM fields the playback methods mutate. -/
structure PlayerState where
  isPlaying : Bool
  currentTrackIndex : ℤ
  isShuffled : Bool
  isRepeating : Bool
  tracks : List Track
  audioSrc : String
  trackTitleText : String
  progressBarValue : ℚ
  progressFillWidth : String
  progressFillPlaying : Bool
  progressContainerLoading : Bool
  currentTimeText : String
deriving DecidableEq, Repr

/-- `loadTrack(index)`: guarded by `index >= 0 && index < this.tracks.length`;
sets the current index, audio source and title, moves the single `active`
class to the chosen entry, and resets the progress indicators. -/
def loadTrack (st : PlayerState) (index : ℤ) : PlayerState :=
  if h : 0 ≤ index ∧ index < (st.tracks.length : ℤ) then
    let i : Nat := index.toNat
    let track := st.tracks.get ⟨i, by omega⟩
    { st with
      currentTrackIndex := index
      audioSrc := track.src
      trackTitleText := track.title
      tracks := (st.tracks.map (fun t => { t with active := false })).set i
        { track with active := true }
      progressBarValue := 0
      progressFillWidth := "0%"
      progressFillPlaying := false
      progressContainerLoading := false
      currentTimeText := "0:00" }
  else st

/-- `playNext()`: with shuffle on the next index is
`Math.floor(Math.random() * tracks.length)` with `q` standing for the
`Math.random()` draw; otherwise `(currentTrackIndex + 1) % tracks.length`.
The conditional `audio.play()` call has no modelled state. -/
def playNext (st : PlayerState) (q : ℚ) : PlayerState :=
  let nextIndex : ℤ :=
    if st.isShuffled then ⌊q * (st.tracks.length : ℚ)⌋
    else (st.currentTrackIndex + 1).tmod (st.tracks.length : ℤ)
  loadTrack st nextIndex

/-- `playPrevious()`: step back one index, wrapping from 0 to the last
track. -/
def playPrevious (st : PlayerState) : PlayerState :=
  let prevIndex : ℤ :=
    if st.currentTrackIndex = 0 then (st.tracks.length : ℤ) - 1
    else st.currentTrackIndex - 1
  loadTrack st prevIndex

/-- `formatTime(seconds)`: `Math.floor(seconds / 60)` unpadded, a colon,
and `Math.floor(seconds % 60)` zero-padded to two digits. -/
def formatTime (seconds : ℚ) : String :=
  let mins : ℤ := ⌊seconds / 60⌋
  let secs : ℤ := ⌊jsFmod seconds 60⌋
  toString mins ++ ":" ++ padStart (toString secs) 2 '0'

/-- Restatement of the specification sentence for `formatTime`, written
from its words alone: the string is floor(seconds/60) unpadded, a colon,
and floor(seconds mod 60) zero-padded to two digits, where `mod` is the
mathematical (flooring) remainder. Used to compare spec and code. -/
def formatTimeSpec (seconds : ℚ) : String :=
  toString ⌊seconds / 60⌋ ++ ":" ++
    padStart (toString ⌊seconds - 60 * (⌊seconds / 60⌋ : ℚ)⌋) 2 '0'

/-- The timer-related state: counters and running flag of the constructor,
the interval handle (`some ()` while a `setInterval` is registered), the
countdown display text, the Start button's label and disabled flag, and
which preset button (60/30/15) currently carries the selected colors. -/
structure TimerState where
  timerMinutes : ℤ
  timerSeconds : ℤ
  timerRunning : Bool
  timerInterval : Option Unit
  timerDisplayText : String
  startBtnText : String
  startBtnDisabled : Bool
  presetHighlight : Option ℤ
deriving DecidableEq, Repr

/-- `updateTimerDisplay()`: both minutes and seconds zero-padded to two
digits. -/
def updateTimerDisplay (st : TimerState) : TimerState :=
  { st with timerDisplayText :=
      padStart (toString st.timerMinutes) 2 '0' ++ ":" ++
      padStart (toString st.timerSeconds) 2 '0' }

/-- `pauseTimer()`: only acts when `timerRunning`; clears the flag, restores
the Start button, and clears the interval handle when one is set. -/
def pauseTimer (st : TimerState) : TimerState :=
  if st.timerRunning then
    let st := { st with timerRunning := false, startBtnText := "Start",
                        startBtnDisabled := false }
    if st.timerInterval.isSome then { st with timerInterval := none } else st
  else st

/-- `timerComplete()`: pause, write "00:00" then the completion message to
the display, restore the Start button. The notification, chime and the
4-second delayed `resetTimer` are unmodelled external effects. -/
def timerComplete (st : TimerState) : TimerState :=
  let st := pauseTimer st
  let st := { st with timerDisplayText := "00:00", startBtnText := "Start",
                      startBtnDisabled := false }
  { st with timerDisplayText := "Session Complete!" }

/-- The body of the `setInterval` callback registered by `startTimer()`:
one one-second tick of the countdown. -/
def timerTick (st : TimerState) : TimerState :=
  if st.timerSeconds = 0 then
    if st.timerMinutes = 0 then
      timerComplete st
    else
      updateTimerDisplay
        { st with timerMinutes := st.timerMinutes - 1, timerSeconds := 59 }
  else
    updateTimerDisplay { st with timerSeconds := st.timerSeconds - 1 }

/-- `startTimer()`: guarded by
`!timerRunning && (timerMinutes > 0 || timerSeconds > 0)`; sets the running
flag, the button feedback, and registers the interval (whose repeated firing
is `timerTick`). -/
def startTimer (st : TimerState) : TimerState :=
  if !st.timerRunning && (st.timerMinutes > 0 || st.timerSeconds > 0) then
    { st with timerRunning := true, startBtnText := "Running...",
              startBtnDisabled := true, timerInterval := some () }
  else st

/-- `resetTimer()`: pause, restore the default 60:00, restore the Start
button, refresh the display, and clear the preset-button highlighting. -/
def resetTimer (st : TimerState) : TimerState :=
  let st := pauseTimer st
  let st := updateTimerDisplay
    { st with timerMinutes := 60, timerSeconds := 0, startBtnText := "Start",
              startBtnDisabled := false }
  { st with presetHighlight := none }

/-- `setTimer(minutes)`: pause, set `{minutes, 0}`, restore the Start
button, refresh the display, clear all preset highlights and highlight the
button mapped to `minutes` when one exists (60, 30 or 15). -/
def setTimer (st : TimerState) (minutes : ℤ) : TimerState :=
  let st := pauseTimer st
  let st := updateTimerDisplay
    { st with timerMinutes := minutes, timerSeconds := 0,
              startBtnText := "Start", startBtnDisabled := false }
  { st with presetHighlight :=
      if minutes = 60 ∨ minutes = 30 ∨ minutes = 15 then some minutes
      else none }

/-- One todo entry `{id, text, completed, timestamp}`. -/
structure Todo where
  id : Nat
  text : String
  completed : Bool
  timestamp : Nat
deriving DecidableEq, Repr

/-- The todo-related state: the ordered collection, the id counter, and the
text input's value. The rendered list and the remaining count are
deterministic functions of `todos` and are not duplicated here. -/
structure TodoState where
  todos : List Todo
  todoIdCounter : Nat
  todoInputValue : String
deriving DecidableEq, Repr

/-- `addTodo()`: trim the input (`jsTrim`); an empty result returns early;
otherwise push `{id: todoIdCounter++, text, completed: false,
timestamp: now}` and clear the input. -/
def addTodo (st : TodoState) (now : Nat) : TodoState :=
  let text := jsTrim st.todoInputValue
  if text = "" then st
  else
    { todos := st.todos ++
        [{ id := st.todoIdCounter, text := text, completed := false,
           timestamp := now }]
      todoIdCounter := st.todoIdCounter + 1
      todoInputValue := "" }

/-- The effect of `toggleTodo`'s `find`-then-mutate on the list: flip the
`completed` flag of the first entry whose id matches, if any. -/
def toggleTodoList : List Todo → Nat → List Todo
  | [], _ => []
  | t :: ts, id =>
    if t.id = id then { t with completed := !t.completed } :: ts
    else t :: toggleTodoList ts id

/-- `toggleTodo(id)`: no-op on the state when no entry matches. -/
def toggleTodo (st : TodoState) (id : Nat) : TodoState :=
  { st with todos := toggleTodoList st.todos id }

/-- `deleteTodo(id)`: keep exactly the entries whose id differs. -/
def deleteTodo (st : TodoState) (id : Nat) : TodoState :=
  { st with todos := st.todos.filter (fun t => t.id ≠ id) }

/-- `updateTodoCount()`'s displayed value: the number of incomplete
entries. -/
def remainingCount (st : TodoState) : Nat :=
  (st.todos.filter (fun t => !t.completed)).length

/-- A running timer with one second left, as in the spec's scenario
"ticking from {0,1}". -/
def demoTimer01 : TimerState :=
  { timerMinutes := 0, timerSeconds := 1, timerRunning := true,
    timerInterval := some (), timerDisplayText := "00:01",
    startBtnText := "Running...", startBtnDisabled := true,
    presetHighlight := none }

/-- The three-track player of the spec's scenario `tracks=[A,B,C]`,
positioned at index 0. -/
def demoPlayer : PlayerState :=
  { isPlaying := false, currentTrackIndex := 0, isShuffled := false,
    isRepeating := false,
    tracks := [{ src := "a.mp3", title := "A", active := true },
               { src := "b.mp3", title := "B", active := false },
               { src := "c.mp3", title := "C", active := false }],
    audioSrc := "a.mp3", trackTitleText := "A", progressBarValue := 0,
    progressFillWidth := "0%", progressFillPlaying := false,
    progressContainerLoading := false, currentTimeText := "0:00" }

/-- A small todo list: id 0 incomplete, id 1 completed; counter at 2. -/
def demoTodos : TodoState :=
  { todos := [{ id := 0, text := "Study", completed := false, timestamp := 5 },
              { id := 1, text := "Rest", completed := true, timestamp := 7 }],
    todoIdCounter := 2, todoInputValue := " Review notes " }

/-- C1: `startTimer()` is a no-op when the timer is already running or when
the remaining time is exactly {0,0}; each tick decrements the seconds,
borrows a minute (minutes−1, seconds=59) when seconds is 0 and minutes > 0,
and when both are 0 it transitions to Completed instead of decrementing, so
the remaining time never becomes negative; in particular a tick from {0,1}
gives {0,0} and the next tick completes. -/
theorem startTimer_timerTick_spec (st : TimerState) :
    (st.timerRunning = true → startTimer st = st) ∧
    (st.timerMinutes = 0 → st.timerSeconds = 0 → startTimer st = st) ∧
    (st.timerSeconds ≠ 0 →
      (timerTick st).timerMinutes = st.timerMinutes ∧
      (timerTick st).timerSeconds = st.timerSeconds - 1) ∧
    (st.timerSeconds = 0 → 0 < st.timerMinutes →
      (timerTick st).timerMinutes = st.timerMinutes - 1 ∧
      (timerTick st).timerSeconds = 59) ∧
    (st.timerSeconds = 0 → st.timerMinutes = 0 →
      timerTick st = timerComplete st ∧
      (timerTick st).timerMinutes = 0 ∧ (timerTick st).timerSeconds = 0 ∧
      (timerTick st).timerRunning = false ∧
      (timerTick st).timerDisplayText = "Session Complete!") ∧
    (0 ≤ st.timerMinutes → 0 ≤ st.timerSeconds →
      0 ≤ (timerTick st).timerMinutes ∧ 0 ≤ (timerTick st).timerSeconds) ∧
    ((timerTick demoTimer01).timerMinutes = 0 ∧
     (timerTick demoTimer01).timerSeconds = 0 ∧
     (timerTick (timerTick demoTimer01)).timerDisplayText =
       "Session Complete!" ∧
     (timerTick (timerTick demoTimer01)).timerRunning = false) := by
  refine ⟨?_, ?_, ?_, ?_, ?_, ?_, by decide⟩
  · intro hr
    simp [startTimer, hr]
  · intro hm hs
    simp [startTimer, hm, hs]
  · intro hs
    simp [timerTick, updateTimerDisplay, hs]
  · intro hs hm
    have hm0 : st.timerMinutes ≠ 0 := by omega
    simp [timerTick, updateTimerDisplay, hs, hm0]
  · intro hs hm
    refine ⟨by simp [timerTick, hs, hm], ?_, ?_, ?_, ?_⟩ <;>
      cases hr : st.timerRunning <;>
        cases hi : st.timerInterval <;>
          simp [timerTick, timerComplete, pauseTimer, hs, hm, hr, hi]
  · intro hm hs
    by_cases h0 : st.timerSeconds = 0
    · by_cases h1 : st.timerMinutes = 0
      · constructor <;>
          cases hr : st.timerRunning <;>
            cases hi : st.timerInterval <;>
              simp [timerTick, timerComplete, pauseTimer, h0, h1, hr, hi]
      · constructor <;> simp [timerTick, updateTimerDisplay, h0, h1] <;> omega
    · constructor <;> simp [timerTick, updateTimerDisplay, h0] <;> omega

/-- C1 witness: the tick branch for nonzero seconds applied to the concrete
running state {0,1}. -/
theorem startTimer_timerTick_spec_witness :
    demoTimer01.timerSeconds ≠ 0 ∧
    (timerTick demoTimer01).timerSeconds = demoTimer01.timerSeconds - 1 :=
  ⟨by decide, ((startTimer_timerTick_spec demoTimer01).2.2.1 (by decide)).2⟩

/-- C7: `resetTimer()` always restores the remaining time to {60,0} and
stops ticking, whatever preset was chosen before; in particular
`setTimer(30)`, `startTimer()`, `pauseTimer()`, `resetTimer()` ends at
{60,0}, not {30,0}, with no interval registered. -/
theorem resetTimer_spec (st : TimerState) :
    (resetTimer st).timerMinutes = 60 ∧
    (resetTimer st).timerSeconds = 0 ∧
    (resetTimer st).timerRunning = false ∧
    ((st.timerRunning = false → st.timerInterval = none) →
      (resetTimer st).timerInterval = none) ∧
    ((resetTimer (pauseTimer (startTimer (setTimer st 30)))).timerMinutes = 60 ∧
     (resetTimer (pauseTimer (startTimer (setTimer st 30)))).timerSeconds = 0 ∧
     (resetTimer (pauseTimer (startTimer (setTimer st 30)))).timerRunning
       = false ∧
     (resetTimer (pauseTimer (startTimer (setTimer st 30)))).timerInterval
       = none) := by
  cases hr : st.timerRunning <;> cases hi : st.timerInterval <;>
    simp [resetTimer, pauseTimer, startTimer, setTimer, updateTimerDisplay,
      hr, hi]

/-- C7 witness: the reset sequence evaluated on the concrete running timer
state. -/
theorem resetTimer_spec_witness :
    (demoTimer01.timerRunning = false → demoTimer01.timerInterval = none) ∧
    (resetTimer demoTimer01).timerInterval = none :=
  ⟨by decide, (resetTimer_spec demoTimer01).2.2.2.1 (by decide)⟩

/-- C9: `pauseTimer()` preserves the remaining minutes and seconds; when the
timer is running it clears the running flag and the interval handle, and
when it is not running it changes nothing. -/
theorem pauseTimer_spec (st : TimerState) :
    (pauseTimer st).timerMinutes = st.timerMinutes ∧
    (pauseTimer st).timerSeconds = st.timerSeconds ∧
    (st.timerRunning = true →
      (pauseTimer st).timerRunning = false ∧
      (pauseTimer st).timerInterval = none) ∧
    (st.timerRunning = false → pauseTimer st = st) := by
  cases hr : st.timerRunning <;> cases hi : st.timerInterval <;>
    simp [pauseTimer, hr, hi]

/-- C9 witness: pausing the concrete running timer state clears the flag
and the handle. -/
theorem pauseTimer_spec_witness :
    demoTimer01.timerRunning = true ∧
    (pauseTimer demoTimer01).timerRunning = false ∧
    (pauseTimer demoTimer01).timerInterval = none :=
  ⟨by decide, (pauseTimer_spec demoTimer01).2.2.1 (by decide)⟩

/-- C4: for every non-negative (non-NaN) number of seconds, `formatTime`
produces floor(seconds/60) unpadded, a colon, and floor(seconds mod 60)
zero-padded to two digits; in particular `formatTime 0 = "0:00"`,
`formatTime 65 = "1:05"` and `formatTime 3599 = "59:59"`. -/
theorem formatTime_spec (s : ℚ) (hs : 0 ≤ s) :
    formatTime s = formatTimeSpec s ∧
    formatTime 0 = "0:00" ∧
    formatTime 65 = "1:05" ∧
    formatTime 3599 = "59:59" := by
  refine ⟨?_, ?_, ?_, ?_⟩
  · have h60 : (0:ℚ) ≤ s / 60 := by positivity
    simp [formatTime, formatTimeSpec, jsFmod, jsTrunc, h60]
  · have h1 : ⌊(0:ℚ)/60⌋ = 0 := by norm_num
    have h2 : ⌊jsFmod 0 60⌋ = 0 := by norm_num [jsFmod, jsTrunc]
    simp only [formatTime, h1, h2]
    rfl
  · have h1 : ⌊(65:ℚ)/60⌋ = 1 := by norm_num
    have h2 : ⌊jsFmod 65 60⌋ = 5 := by norm_num [jsFmod, jsTrunc]
    simp only [formatTime, h1, h2]
    rfl
  · have h1 : ⌊(3599:ℚ)/60⌋ = 59 := by norm_num
    have h2 : ⌊jsFmod 3599 60⌋ = 59 := by norm_num [jsFmod, jsTrunc]
    simp only [formatTime, h1, h2]
    rfl

/-- C4 witness: the format equivalence applied at 65 seconds. -/
theorem formatTime_spec_witness :
    (0:ℚ) ≤ 65 ∧ formatTime 65 = formatTimeSpec 65 :=
  ⟨by decide, (formatTime_spec 65 (by decide)).1⟩

theorem loadTrack_of_not_bounds (st : PlayerState) (i : ℤ)
    (h : ¬(0 ≤ i ∧ i < (st.tracks.length : ℤ))) : loadTrack st i = st := by
  simp only [loadTrack]
  rw [dif_neg h]

theorem loadTrack_currentTrackIndex (st : PlayerState) (i : ℤ)
    (h : 0 ≤ i ∧ i < (st.tracks.length : ℤ)) :
    (loadTrack st i).currentTrackIndex = i := by
  simp only [loadTrack]
  rw [dif_pos h]

theorem loadTrack_tracks_length (st : PlayerState) (i : ℤ) :
    (loadTrack st i).tracks.length = st.tracks.length := by
  simp only [loadTrack]
  by_cases h : 0 ≤ i ∧ i < (st.tracks.length : ℤ)
  · rw [dif_pos h]
    simp
  · rw [dif_neg h]

theorem loadTrack_isShuffled (st : PlayerState) (i : ℤ) :
    (loadTrack st i).isShuffled = st.isShuffled := by
  simp only [loadTrack]
  by_cases h : 0 ≤ i ∧ i < (st.tracks.length : ℤ)
  · rw [dif_pos h]
  · rw [dif_neg h]

theorem loadTrack_tracks_eq (st : PlayerState) (i : ℤ)
    (h : 0 ≤ i ∧ i < (st.tracks.length : ℤ)) :
    (loadTrack st i).tracks =
      (st.tracks.map (fun t => { t with active := false })).set i.toNat
        { st.tracks.get ⟨i.toNat, by omega⟩ with active := true } := by
  simp only [loadTrack]
  rw [dif_pos h]

theorem loadTrack_resets (st : PlayerState) (i : ℤ)
    (h : 0 ≤ i ∧ i < (st.tracks.length : ℤ)) :
    (loadTrack st i).progressBarValue = 0 ∧
    (loadTrack st i).progressFillWidth = "0%" ∧
    (loadTrack st i).progressFillPlaying = false ∧
    (loadTrack st i).progressContainerLoading = false ∧
    (loadTrack st i).currentTimeText = "0:00" := by
  simp only [loadTrack]
  rw [dif_pos h]
  exact ⟨rfl, rfl, rfl, rfl, rfl⟩

theorem loadTrack_bounds (st : PlayerState) (i : ℤ)
    (h0 : 0 ≤ st.currentTrackIndex)
    (h1 : st.currentTrackIndex < (st.tracks.length : ℤ)) :
    0 ≤ (loadTrack st i).currentTrackIndex ∧
    (loadTrack st i).currentTrackIndex < ((loadTrack st i).tracks.length : ℤ) := by
  by_cases h : 0 ≤ i ∧ i < (st.tracks.length : ℤ)
  · rw [loadTrack_currentTrackIndex st i h, loadTrack_tracks_length st i]
    exact h
  · rw [loadTrack_of_not_bounds st i h]
    exact ⟨h0, h1⟩

theorem countP_active_map_clear (l : List Track) :
    (l.map (fun t => { t with active := false })).countP
      (fun t => t.active) = 0 := by
  induction l with
  | nil => rfl
  | cons t ts ih => simp [List.countP_cons, ih]

theorem countP_active_set (l : List Track) (i : Nat) (hi : i < l.length)
    (a : Track) (ha : a.active = true) :
    ((l.map (fun t => { t with active := false })).set i a).countP
      (fun t => t.active) = 1 := by
  induction l generalizing i with
  | nil => simp at hi
  | cons t ts ih =>
    cases i with
    | zero => simp [List.countP_cons, ha, countP_active_map_clear]
    | succ n =>
      have hn : n < ts.length := by simpa using hi
      simp [List.set_cons_succ, List.countP_cons, ih n hn]

/-- C5: for an index in [0, trackCount), `loadTrack` sets the current index
to it, marks exactly the chosen entry active, and resets the progress
indicators to zero/blank; for any index outside the range it is a silent
no-op. -/
theorem loadTrack_spec (st : PlayerState) (i : ℤ) :
    (∀ h : 0 ≤ i ∧ i < (st.tracks.length : ℤ),
      (loadTrack st i).currentTrackIndex = i ∧
      (loadTrack st i).tracks.length = st.tracks.length ∧
      (∀ j, j < st.tracks.length →
        Option.map Track.active ((loadTrack st i).tracks[j]?) =
          some (decide (j = i.toNat))) ∧
      (loadTrack st i).tracks.countP (fun t => t.active) = 1 ∧
      (loadTrack st i).progressBarValue = 0 ∧
      (loadTrack st i).progressFillWidth = "0%" ∧
      (loadTrack st i).progressFillPlaying = false ∧
      (loadTrack st i).progressContainerLoading = false ∧
      (loadTrack st i).currentTimeText = "0:00") ∧
    (¬(0 ≤ i ∧ i < (st.tracks.length : ℤ)) → loadTrack st i = st) := by
  constructor
  · intro h
    have hi : i.toNat < st.tracks.length := by omega
    have hres := loadTrack_resets st i h
    refine ⟨loadTrack_currentTrackIndex st i h, loadTrack_tracks_length st i,
      ?_, ?_, hres.1, hres.2.1, hres.2.2.1, hres.2.2.2.1, hres.2.2.2.2⟩
    · intro j hj
      rw [loadTrack_tracks_eq st i h, List.getElem?_set]
      by_cases hij : i.toNat = j
      · subst hij
        have hi2 : i.toNat <
            (st.tracks.map (fun t => { t with active := false })).length := by
          simpa using hi
        simp [hi2, hi]
      · have hji : j ≠ i.toNat := fun hh => hij hh.symm
        rw [if_neg hij, List.getElem?_map,
          List.getElem?_eq_getElem hj]
        simp [hji]
    · rw [loadTrack_tracks_eq st i h]
      exact countP_active_set st.tracks i.toNat hi _ rfl
  · exact loadTrack_of_not_bounds st i

/-- C5 witness: loading index 1 of the three-track demo player. -/
theorem loadTrack_spec_witness :
    (0 ≤ (1:ℤ) ∧ (1:ℤ) < (demoPlayer.tracks.length : ℤ)) ∧
    (loadTrack demoPlayer 1).currentTrackIndex = 1 :=
  ⟨by decide, ((loadTrack_spec demoPlayer 1).1 ⟨by decide, by decide⟩).1⟩

/-- C3: from any state whose current index is in [0, trackCount), every
playback-control operation leaves the index in [0, trackCount): `playNext`
for any random draw (shuffled or not), `playPrevious`, and `loadTrack` at
any argument; moreover with shuffle on and a draw q in [0,1) the index
actually becomes floor(q * trackCount). -/
theorem playback_index_in_bounds (st : PlayerState)
    (h0 : 0 ≤ st.currentTrackIndex)
    (h1 : st.currentTrackIndex < (st.tracks.length : ℤ)) :
    (∀ q : ℚ, 0 ≤ (playNext st q).currentTrackIndex ∧
      (playNext st q).currentTrackIndex <
        ((playNext st q).tracks.length : ℤ)) ∧
    (∀ q : ℚ, st.isShuffled = true → 0 ≤ q → q < 1 →
      (playNext st q).currentTrackIndex = ⌊q * (st.tracks.length : ℚ)⌋) ∧
    (0 ≤ (playPrevious st).currentTrackIndex ∧
      (playPrevious st).currentTrackIndex <
        ((playPrevious st).tracks.length : ℤ)) ∧
    (∀ i : ℤ, 0 ≤ (loadTrack st i).currentTrackIndex ∧
      (loadTrack st i).currentTrackIndex <
        ((loadTrack st i).tracks.length : ℤ)) := by
  have hlen : 0 < st.tracks.length := by omega
  refine ⟨?_, ?_, ?_, fun i => loadTrack_bounds st i h0 h1⟩
  · intro q
    simp only [playNext]
    exact loadTrack_bounds st _ h0 h1
  · intro q hsh hq0 hq1
    have hlenQ : (0:ℚ) < (st.tracks.length : ℚ) := by exact_mod_cast hlen
    have hfl0 : (0:ℤ) ≤ ⌊q * (st.tracks.length : ℚ)⌋ :=
      Int.le_floor.mpr (by push_cast; exact mul_nonneg hq0 (le_of_lt hlenQ))
    have hfl1 : ⌊q * (st.tracks.length : ℚ)⌋ < (st.tracks.length : ℤ) :=
      Int.floor_lt.mpr (by push_cast; exact mul_lt_of_lt_one_left hlenQ hq1)
    simp only [playNext, hsh, if_true]
    exact loadTrack_currentTrackIndex st _ ⟨hfl0, hfl1⟩
  · simp only [playPrevious]
    exact loadTrack_bounds st _ h0 h1

/-- C3 witness: the bound for `playPrevious` on the demo player. -/
theorem playback_index_in_bounds_witness :
    0 ≤ demoPlayer.currentTrackIndex ∧
    demoPlayer.currentTrackIndex < (demoPlayer.tracks.length : ℤ) ∧
    0 ≤ (playPrevious demoPlayer).currentTrackIndex ∧
    (playPrevious demoPlayer).currentTrackIndex <
      ((playPrevious demoPlayer).tracks.length : ℤ) :=
  ⟨by decide, by decide,
    (playback_index_in_bounds demoPlayer (by decide) (by decide)).2.2.1⟩

theorem playNext_no_shuffle (st : PlayerState) (q : ℚ)
    (hsh : st.isShuffled = false)
    (h0 : 0 ≤ st.currentTrackIndex)
    (h1 : st.currentTrackIndex < (st.tracks.length : ℤ)) :
    (playNext st q).currentTrackIndex =
      (st.currentTrackIndex + 1) % (st.tracks.length : ℤ) ∧
    (playNext st q).tracks.length = st.tracks.length ∧
    (playNext st q).isShuffled = false := by
  have hlen0 : (0:ℤ) < (st.tracks.length : ℤ) := by omega
  have htm : (st.currentTrackIndex + 1).tmod (st.tracks.length : ℤ) =
      (st.currentTrackIndex + 1) % (st.tracks.length : ℤ) :=
    Int.tmod_eq_emod (by omega) (by omega)
  have hb : 0 ≤ (st.currentTrackIndex + 1) % (st.tracks.length : ℤ) ∧
      (st.currentTrackIndex + 1) % (st.tracks.length : ℤ) <
        (st.tracks.length : ℤ) :=
    ⟨Int.emod_nonneg _ (by omega), Int.emod_lt_of_pos _ hlen0⟩
  simp only [playNext, hsh, if_false, Bool.false_eq_true, htm]
  exact ⟨loadTrack_currentTrackIndex st _ hb, loadTrack_tracks_length st _,
    by rw [loadTrack_isShuffled]; exact hsh⟩

theorem playNext_iterate_emod (st : PlayerState)
    (hsh : st.isShuffled = false)
    (h0 : 0 ≤ st.currentTrackIndex)
    (h1 : st.currentTrackIndex < (st.tracks.length : ℤ)) (k : Nat) :
    ((fun s => playNext s 0)^[k] st).currentTrackIndex =
      (st.currentTrackIndex + (k : ℤ)) % (st.tracks.length : ℤ) ∧
    ((fun s => playNext s 0)^[k] st).tracks.length = st.tracks.length ∧
    ((fun s => playNext s 0)^[k] st).isShuffled = false := by
  induction k with
  | zero =>
    simp only [Function.iterate_zero_apply, Nat.cast_zero, add_zero]
    exact ⟨(Int.emod_eq_of_lt h0 h1).symm, trivial, hsh⟩
  | succ n ih =>
    obtain ⟨hidx, hlen2, hsh2⟩ := ih
    have hlen0 : (0:ℤ) < (st.tracks.length : ℤ) := by omega
    have hb0 : 0 ≤ ((fun s => playNext s 0)^[n] st).currentTrackIndex := by
      rw [hidx]
      exact Int.emod_nonneg _ (by omega)
    have hb1 : ((fun s => playNext s 0)^[n] st).currentTrackIndex <
        ((((fun s => playNext s 0)^[n] st).tracks.length : Nat) : ℤ) := by
      rw [hidx, hlen2]
      exact Int.emod_lt_of_pos _ hlen0
    have hstep :=
      playNext_no_shuffle ((fun s => playNext s 0)^[n] st) 0 hsh2 hb0 hb1
    rw [Function.iterate_succ_apply']
    refine ⟨?_, by rw [hstep.2.1, hlen2], hstep.2.2⟩
    rw [hstep.1, hidx, hlen2]
    have key : ∀ a : ℤ,
        (a % (st.tracks.length : ℤ) + 1) % (st.tracks.length : ℤ) =
          (a + 1) % (st.tracks.length : ℤ) := by
      intro a
      conv_lhs => rw [Int.add_emod, Int.emod_emod_of_dvd _ dvd_rfl]
      rw [← Int.add_emod]
    rw [key]
    congr 1
    push_cast
    ring

/-- C2: with shuffle off, `playNext` advances the current index by one
modulo trackCount, so iterating it trackCount times returns to the starting
index; on the concrete three-track player starting at index 0, three calls
visit indices 1, 2, 0. -/
theorem playNext_cycles (st : PlayerState)
    (hsh : st.isShuffled = false)
    (h0 : 0 ≤ st.currentTrackIndex)
    (h1 : st.currentTrackIndex < (st.tracks.length : ℤ)) :
    ((fun s => playNext s 0)^[st.tracks.length] st).currentTrackIndex =
      st.currentTrackIndex ∧
    (playNext demoPlayer 0).currentTrackIndex = 1 ∧
    (playNext (playNext demoPlayer 0) 0).currentTrackIndex = 2 ∧
    (playNext (playNext (playNext demoPlayer 0) 0) 0).currentTrackIndex
      = 0 := by
  refine ⟨?_, by decide, by decide, by decide⟩
  rw [(playNext_iterate_emod st hsh h0 h1 st.tracks.length).1]
  have hcancel : (st.currentTrackIndex + (st.tracks.length : ℤ)) %
      (st.tracks.length : ℤ) =
      st.currentTrackIndex % (st.tracks.length : ℤ) := by
    simpa using
      Int.add_mul_emod_self_left st.currentTrackIndex (st.tracks.length : ℤ) 1
  rw [hcancel, Int.emod_eq_of_lt h0 h1]

/-- C2 witness: the cyclic property applied to the three-track demo
player. -/
theorem playNext_cycles_witness :
    demoPlayer.isShuffled = false ∧
    0 ≤ demoPlayer.currentTrackIndex ∧
    demoPlayer.currentTrackIndex < (demoPlayer.tracks.length : ℤ) ∧
    ((fun s => playNext s 0)^[demoPlayer.tracks.length]
        demoPlayer).currentTrackIndex = demoPlayer.currentTrackIndex :=
  ⟨by decide, by decide, by decide,
    (playNext_cycles demoPlayer (by decide) (by decide) (by decide)).1⟩

theorem toggleTodoList_of_not_mem (l : List Todo) (id : Nat)
    (h : ∀ t ∈ l, t.id ≠ id) : toggleTodoList l id = l := by
  induction l with
  | nil => rfl
  | cons t ts ih =>
    have ht : t.id ≠ id := h t (List.mem_cons_self t ts)
    simp only [toggleTodoList, if_neg ht]
    rw [ih fun u hu => h u (List.mem_cons_of_mem t hu)]

theorem toggleTodoList_length (l : List Todo) (id : Nat) :
    (toggleTodoList l id).length = l.length := by
  induction l with
  | nil => rfl
  | cons t ts ih =>
    by_cases ht : t.id = id <;> simp [toggleTodoList, ht, ih]

theorem toggleTodoList_first_match (l1 : List Todo) (t : Todo)
    (l2 : List Todo) (id : Nat) (ht : t.id = id)
    (h1 : ∀ u ∈ l1, u.id ≠ id) :
    toggleTodoList (l1 ++ t :: l2) id =
      l1 ++ { t with completed := !t.completed } :: l2 := by
  induction l1 with
  | nil => simp [toggleTodoList, ht]
  | cons u us ih =>
    have hu : u.id ≠ id := h1 u (List.mem_cons_self u us)
    simp only [List.cons_append, toggleTodoList, if_neg hu, List.append_eq]
    rw [ih fun v hv => h1 v (List.mem_cons_of_mem u hv)]

theorem filter_ne_first_match (l1 : List Todo) (t : Todo) (l2 : List Todo)
    (id : Nat) (ht : t.id = id) (h1 : ∀ u ∈ l1, u.id ≠ id)
    (h2 : ∀ u ∈ l2, u.id ≠ id) :
    (l1 ++ t :: l2).filter (fun u => u.id ≠ id) = l1 ++ l2 := by
  rw [List.filter_append, List.filter_cons]
  have htf : (decide (t.id ≠ id)) = false := by simp [ht]
  rw [htf]
  simp only [Bool.false_eq_true, if_false]
  rw [List.filter_eq_self.mpr (fun u hu => by simpa using h1 u hu),
    List.filter_eq_self.mpr (fun u hu => by simpa using h2 u hu)]

theorem not_mem_ids_of_nodup (l1 : List Todo) (t : Todo) (l2 : List Todo)
    (h : ((l1 ++ t :: l2).map Todo.id).Nodup) :
    (∀ u ∈ l1, u.id ≠ t.id) ∧ (∀ u ∈ l2, u.id ≠ t.id) := by
  rw [List.map_append, List.nodup_append] at h
  obtain ⟨hn1, hn2, hdis⟩ := h
  constructor
  · intro u hu heq
    exact hdis (List.mem_map_of_mem Todo.id hu) (by simp [heq])
  · intro u hu heq
    rw [List.map_cons, List.nodup_cons] at hn2
    exact hn2.1 (heq ▸ List.mem_map_of_mem Todo.id hu)

/-- C6: `addTodo` first trims the input; a blank result is a complete no-op,
otherwise exactly one entry {id: counter, text: trimmed, completed: false}
is appended, the counter advances by one (so ids are never reused and stay
strictly increasing), and the remaining count grows by exactly one. -/
theorem addTodo_spec (st : TodoState) (now : Nat) :
    (jsTrim st.todoInputValue = "" → addTodo st now = st) ∧
    (jsTrim st.todoInputValue ≠ "" →
      (addTodo st now).todos = st.todos ++
        [{ id := st.todoIdCounter, text := jsTrim st.todoInputValue,
           completed := false, timestamp := now }] ∧
      (addTodo st now).todoIdCounter = st.todoIdCounter + 1 ∧
      remainingCount (addTodo st now) = remainingCount st + 1) ∧
    ((∀ t ∈ st.todos, t.id < st.todoIdCounter) →
      (∀ t ∈ (addTodo st now).todos, t.id < (addTodo st now).todoIdCounter) ∧
      (List.Pairwise (fun a b => a.id < b.id) st.todos →
        List.Pairwise (fun a b => a.id < b.id) (addTodo st now).todos)) := by
  by_cases he : jsTrim st.todoInputValue = ""
  · have heq : addTodo st now = st := by simp [addTodo, he]
    refine ⟨fun _ => heq, fun hne => absurd he hne, fun hbound => ?_⟩
    rw [heq]
    exact ⟨hbound, fun hp => hp⟩
  · have h1 : (addTodo st now).todos = st.todos ++
        [{ id := st.todoIdCounter, text := jsTrim st.todoInputValue,
           completed := false, timestamp := now }] := by
      simp [addTodo, he]
    have h2 : (addTodo st now).todoIdCounter = st.todoIdCounter + 1 := by
      simp [addTodo, he]
    refine ⟨fun hc => absurd hc he, fun _ => ⟨h1, h2, ?_⟩,
      fun hbound => ⟨?_, ?_⟩⟩
    · unfold remainingCount
      rw [h1, List.filter_append]
      simp
    · intro t htmem
      rw [h1] at htmem
      rw [h2]
      rcases List.mem_append.mp htmem with hin | hin
      · have := hbound t hin
        omega
      · rw [List.mem_singleton] at hin
        subst hin
        show st.todoIdCounter < st.todoIdCounter + 1
        omega
    · intro hp
      rw [h1, List.pairwise_append]
      refine ⟨hp, List.pairwise_singleton _ _, ?_⟩
      intro a ha b hb
      rw [List.mem_singleton] at hb
      subst hb
      exact hbound a ha

/-- C6 witness: adding from the concrete non-blank input advances the id
counter by one. -/
theorem addTodo_spec_witness :
    jsTrim demoTodos.todoInputValue ≠ "" ∧
    (addTodo demoTodos 9).todoIdCounter = demoTodos.todoIdCounter + 1 :=
  ⟨by decide, ((addTodo_spec demoTodos 9).2.1 (by decide)).2.1⟩

/-- C8: when no entry carries the id, both `toggleTodo` and `deleteTodo`
are no-ops; when the ids are unique and the entry is present, `toggleTodo`
flips exactly the matching entry's completed flag and `deleteTodo` removes
exactly that entry. -/
theorem toggleDelete_spec (st : TodoState) (id : Nat) :
    ((∀ t ∈ st.todos, t.id ≠ id) →
      toggleTodo st id = st ∧ deleteTodo st id = st) ∧
    ((st.todos.map Todo.id).Nodup →
      ∀ l1 t l2, st.todos = l1 ++ t :: l2 → t.id = id →
        (toggleTodo st id).todos =
          l1 ++ { t with completed := !t.completed } :: l2 ∧
        (deleteTodo st id).todos = l1 ++ l2) := by
  constructor
  · intro h
    constructor
    · show ({ st with todos := toggleTodoList st.todos id } : TodoState) = st
      rw [toggleTodoList_of_not_mem st.todos id h]
    · show ({ st with
          todos := st.todos.filter (fun t => t.id ≠ id) } : TodoState) = st
      rw [List.filter_eq_self.mpr (fun u hu => by simpa using h u hu)]
  · intro hnd l1 t l2 hdec ht
    have hne := not_mem_ids_of_nodup l1 t l2 (hdec ▸ hnd)
    constructor
    · show toggleTodoList st.todos id = _
      rw [hdec]
      exact toggleTodoList_first_match l1 t l2 id ht
        (fun u hu => ht ▸ hne.1 u hu)
    · show st.todos.filter (fun u => u.id ≠ id) = l1 ++ l2
      rw [hdec]
      exact filter_ne_first_match l1 t l2 id ht
        (fun u hu => ht ▸ hne.1 u hu) (fun u hu => ht ▸ hne.2 u hu)

/-- C8 witness: id 5 is absent from the demo list, so toggle and delete
leave it unchanged. -/
theorem toggleDelete_spec_witness :
    (∀ t ∈ demoTodos.todos, t.id ≠ 5) ∧
    toggleTodo demoTodos 5 = demoTodos ∧ deleteTodo demoTodos 5 = demoTodos :=
  ⟨by decide, (toggleDelete_spec demoTodos 5).1 (by decide)⟩

/-- C10: `toggleTodo` never changes the list length, the id counter or the
input value, and on the first matching entry it replaces only the completed
flag: the entry keeps its id, text and timestamp, and all entries before
and after it are returned unchanged in order. -/
theorem toggleTodo_frame (st : TodoState) (id : Nat) :
    (toggleTodo st id).todos.length = st.todos.length ∧
    (toggleTodo st id).todoIdCounter = st.todoIdCounter ∧
    (toggleTodo st id).todoInputValue = st.todoInputValue ∧
    (∀ l1 t l2, st.todos = l1 ++ t :: l2 → t.id = id →
      (∀ u ∈ l1, u.id ≠ id) →
      (toggleTodo st id).todos =
        l1 ++ { t with completed := !t.completed } :: l2 ∧
      ({ t with completed := !t.completed } : Todo).id = t.id ∧
      ({ t with completed := !t.completed } : Todo).text = t.text ∧
      ({ t with completed := !t.completed } : Todo).timestamp =
        t.timestamp) := by
  refine ⟨toggleTodoList_length st.todos id, rfl, rfl, ?_⟩
  intro l1 t l2 hdec ht h1
  refine ⟨?_, rfl, rfl, rfl⟩
  show toggleTodoList st.todos id = _
  rw [hdec]
  exact toggleTodoList_first_match l1 t l2 id ht h1

/-- C10 witness: toggling id 1 in the demo list flips only that entry. -/
theorem toggleTodo_frame_witness :
    (toggleTodo demoTodos 1).todos =
      ([⟨0, "Study", false, 5⟩] : List Todo) ++
        ({ (⟨1, "Rest", true, 7⟩ : Todo) with completed := !true } :
          Todo) :: [] :=
  ((toggleTodo_frame demoTodos 1).2.2.2 [⟨0, "Study", false, 5⟩]
    ⟨1, "Rest", true, 7⟩ [] (by decide) (by decide) (by decide)).1
